import Mathlib

set_option autoImplicit false

/-!
Shallow embedding of the FiltererApp logic of full_local_main.py:
the DNO persistence store (dno.db, one table with a unique TEXT column),
the in-memory inventory table (a pandas DataFrame accumulated by
upload_excel), and the zero/low classifiers (find_zeros, find_lows).
The tkinter layout, the department lights and the SAP replay driver are
UI-side and not modelled.
-/

deriving instance DecidableEq for Except

/-- Cell and column values as pandas reads them from a spreadsheet: an
integer number, a text value, or a missing value (NaN from an empty
cell). Python equality never identifies an int with a str. -/
inductive Value where
  | vInt (i : Int)
  | vStr (s : String)
  | vNone
deriving DecidableEq, Repr

/-- One row of the inventory table after the column selection of
upload_excel: Department, Merchandise Category, Article Description,
Article, Inventory. The Inventory column holds signed integers. -/
structure Row where
  department : Value
  category : Value
  description : Value
  article : Value
  inventory : Int
deriving DecidableEq, Repr

/-- FiltererApp.BANNED_CATS, exactly as listed in the source. -/
def BANNED_CATS : List String :=
  ["Nuts/ Dried Fruit", "Fresh-", "Field Veg", "Root Veg", "Salad Veg",
   "Cooking Veg", "Peppers", "Tomatoes",
   "Lamb", "Sausage", "Hams",
   "Books-", "Magazines", "Newspapers"]

/-- FiltererApp.LOW_THRESHOLD. -/
def LOW_THRESHOLD : Int := 2

/-- The local helper is_banned of upload_excel: any(cat.startswith(bad)
for bad in BANNED_CATS). Python startswith exists only on str values, so
on an int or a missing value the attribute lookup raises; that outcome is
modelled as Option.none. Python startswith is the characterwise prefix
test, modelled on the character lists. -/
def is_banned : Value → Option Bool
  | Value.vStr s => some (BANNED_CATS.any (fun bad => bad.toList.isPrefixOf s.toList))
  | _ => Option.none

/-- The in-memory state of FiltererApp that the modelled operations touch:
df_inventory, filtered_zeros and filtered_lows. -/
structure AppState where
  df_inventory : List Row
  filtered_zeros : Finset Value
  filtered_lows : Finset Value
deriving DecidableEq

/-- The state set up in FiltererApp.__init__: empty table, empty sets. -/
def initState : AppState :=
  { df_inventory := [], filtered_zeros := ∅, filtered_lows := ∅ }

/-- DataFrame.drop_duplicates with subset Article and keep last: a row is
kept exactly when no later row carries the same Article value, and kept
rows stay in order. -/
def dropDuplicatesKeepLast : List Row → List Row
  | [] => []
  | r :: rest =>
    if (dropDuplicatesKeepLast rest).any (fun x => x.article == r.article) then
      dropDuplicatesKeepLast rest
    else r :: dropDuplicatesKeepLast rest

/-- The uncaught exception upload_excel can raise: applying is_banned to a
non-string Merchandise Category value raises an attribute error. -/
inductive UploadErr where
  | typeErrorNonStringCategory
deriving DecidableEq, Repr

/-- FiltererApp.upload_excel, steps 3 to 5 (step 2 only flips department
light booleans, which are UI state). The banned-category filter applies
is_banned to every Merchandise Category cell; if any of them is not a
string the apply raises before self.df_inventory is touched, so the whole
ingest fails with the state unchanged. Otherwise the surviving rows are
appended (or installed, when the table was empty) and duplicates by
Article are dropped keeping the last occurrence. -/
def upload_excel (st : AppState) (new_rows : List Row) : Except UploadErr AppState :=
  if new_rows.any (fun r => (is_banned r.category).isNone) then
    Except.error UploadErr.typeErrorNonStringCategory
  else
    let new_df := new_rows.filter (fun r => is_banned r.category == some false)
    let merged := if st.df_inventory.isEmpty then new_df else st.df_inventory ++ new_df
    Except.ok { st with df_inventory := dropDuplicatesKeepLast merged }

/-- The state after one upload attempt: an upload whose banned-category
test raises leaves the state unchanged (the exception occurs before the
table is assigned). -/
def uploadStep (st : AppState) (rows : List Row) : AppState :=
  match upload_excel st rows with
  | Except.ok st2 => st2
  | Except.error _ => st

/-- A session of uploads starting from the initial state. -/
def runUploads (uploads : List (List Row)) : AppState :=
  uploads.foldl uploadStep initState

/-- The dno.db file: Option.none when the file does not exist on disk,
otherwise the rows of the dno table (article TEXT UNIQUE) in insertion
order, pairwise distinct. -/
abbrev DnoStore := Option (List String)

/-- The exception fetch_dno_articles can raise: int(...) on a stored
article that is not an integer numeral raises ValueError. -/
inductive DnoErr where
  | valueError
deriving DecidableEq, Repr

/-- Value of a decimal digit character, if it is one. -/
def charDigit (c : Char) : Option Nat :=
  if 48 ≤ c.toNat ∧ c.toNat ≤ 57 then some (c.toNat - 48) else Option.none

/-- Value of a non-empty all-digit character list, read left to right. -/
def digitsVal : List Char → Option Nat
  | [] => Option.none
  | l =>
    l.foldl
      (fun acc c =>
        match acc, charDigit c with
        | some n, some d => some (10 * n + d)
        | _, _ => Option.none)
      (some 0)

/-- Python int(text): an optional sign followed by one or more decimal
digits gives the signed value; any other text raises ValueError, modelled
as Option.none. -/
def pyInt (s : String) : Option Int :=
  match s.toList with
  | '-' :: rest => (digitsVal rest).map (fun n => -(n : Int))
  | '+' :: rest => (digitsVal rest).map (fun n => (n : Int))
  | l => (digitsVal l).map (fun n => (n : Int))

/-- The list comprehension of fetch_dno_articles, int(r[0]) for each
fetched row in order; the first non-numeral raises. -/
def fetch_list : List String → Except DnoErr (List Int)
  | [] => Except.ok []
  | r :: rest =>
    match pyInt r with
    | some i =>
      match fetch_list rest with
      | Except.ok l => Except.ok (i :: l)
      | Except.error e => Except.error e
    | Option.none => Except.error DnoErr.valueError

/-- FiltererApp.fetch_dno_articles: returns an empty set when dno.db does
not exist; otherwise creates the table if absent (no rows are added by
that) and converts every stored article with int(...), raising ValueError
on a non-numeral. Note the stored TEXT identifiers come back as Python
ints, not as the stored strings. -/
def fetch_dno_articles (store : DnoStore) : Except DnoErr (List Int) :=
  match store with
  | Option.none => Except.ok []
  | some rows => fetch_list rows

/-- INSERT OR IGNORE into the dno table (article TEXT UNIQUE): a duplicate
is skipped, a new value is appended. -/
def insertOrIgnore (rows : List String) (a : String) : List String :=
  if a ∈ rows then rows else rows ++ [a]

/-- The per-item normalization inside the import loop of import_dno:
isinstance(item, (int, float)) gives str(int(item)); every other value
goes through str(item), which on a str is the string itself, unchanged.
Missing values never reach this point because of dropna. -/
def str_of_item : Value → String
  | Value.vInt i => toString i
  | Value.vStr s => s
  | Value.vNone => "nan"

/-- The insertion loop of import_dno over the flattened values. -/
def importFold (rows : List String) (items : List Value) : List String :=
  items.foldl (fun acc item => insertOrIgnore acc (str_of_item item)) rows

/-- FiltererApp.import_dno on an Excel workbook: for every sheet, ravel
the first ten columns (each sheet arrives here already raveled as a flat
cell list), drop missing values, normalize each item and INSERT OR IGNORE
it; report how much the table row count grew. Connecting creates the db
file when it was absent. -/
def import_dno (store : DnoStore) (sheets : List (List Value)) : DnoStore × Nat :=
  let all_values := (sheets.map (fun cells => cells.filter (fun v => v ≠ Value.vNone))).flatten
  let rows := store.getD []
  let existing_count := rows.length
  let rows2 := importFold rows all_values
  (some rows2, rows2.length - existing_count)

/-- The error export_dno reports when no local dno.db exists. -/
inductive ExportErr where
  | notFoundError
deriving DecidableEq, Repr

/-- FiltererApp.export_dno: copy dno.db over the Downloads destination;
with no local dno.db, report the error and leave the destination alone.
The pair holds the outcome and the destination contents after the call. -/
def export_dno (store : DnoStore) (dest : DnoStore) : Except ExportErr Unit × DnoStore :=
  match store with
  | Option.none => (Except.error ExportErr.notFoundError, dest)
  | some rows => (Except.ok (), some rows)

/-- FiltererApp.add_new_DNO with a non-empty, confirmed article string:
connect (creating the file when absent), create the table if absent,
INSERT OR IGNORE the article. -/
def add_new_DNO (store : DnoStore) (article : String) : DnoStore :=
  some (insertOrIgnore (store.getD []) article)

/-- Outcome of remove_from_DNO: a row was deleted, the article was not
present, or the DELETE raised (no dno table exists, since this method,
unlike the others, never creates it). -/
inductive RemoveResult where
  | removed
  | notFound
  | operationalError
deriving DecidableEq, Repr

/-- FiltererApp.remove_from_DNO with a non-empty, confirmed article
string: DELETE FROM dno WHERE article = ?, then report removed when
cur.rowcount is positive and not-found otherwise. With no dno.db present
the connect creates an empty file and the DELETE raises
sqlite3.OperationalError, caught and surfaced as an error alert. -/
def remove_from_DNO (store : DnoStore) (article : String) : DnoStore × RemoveResult :=
  match store with
  | Option.none => (some [], RemoveResult.operationalError)
  | some rows =>
    let rows2 := rows.filter (fun r => r ≠ article)
    (some rows2,
     if rows2.length < rows.length then RemoveResult.removed else RemoveResult.notFound)

/-- Series.isin against the list fetch_dno_articles returns: pandas
compares values exactly, so only an integer Article cell can ever match
an int from the DNO list; a string Article cell never does. -/
def isinDno (v : Value) (dno : List Int) : Bool :=
  match v with
  | Value.vInt i => dno.contains i
  | _ => false

/-- The failures of the classifiers: an empty inventory table, or the
ValueError propagated out of fetch_dno_articles. -/
inductive ClassifyErr where
  | emptyInputError
  | valueError
deriving DecidableEq, Repr

/-- FiltererApp.find_zeros: refuse on an empty inventory table; otherwise
select the rows with Inventory at most 0, drop those whose Article is in
the fetched DNO list, add the surviving Article values to filtered_zeros
and report the size of the updated set. A fetch ValueError propagates
uncaught. -/
def find_zeros (st : AppState) (store : DnoStore) : Except ClassifyErr (AppState × Nat) :=
  if st.df_inventory.isEmpty then
    Except.error ClassifyErr.emptyInputError
  else
    let zero_df := st.df_inventory.filter (fun r => decide (r.inventory ≤ 0))
    match fetch_dno_articles store with
    | Except.error _ => Except.error ClassifyErr.valueError
    | Except.ok dno_list =>
      let zero_df2 := zero_df.filter (fun r => !isinDno r.article dno_list)
      let zeros2 := st.filtered_zeros ∪ (zero_df2.map (fun r => r.article)).toFinset
      Except.ok ({ st with filtered_zeros := zeros2 }, zeros2.card)

/-- FiltererApp.find_lows: refuse on an empty inventory table; otherwise
select the rows with Inventory strictly positive and at most
LOW_THRESHOLD, add their Article values to filtered_lows and report the
size of the updated set. The DNO store is not consulted at all. -/
def find_lows (st : AppState) : Except ClassifyErr (AppState × Nat) :=
  if st.df_inventory.isEmpty then
    Except.error ClassifyErr.emptyInputError
  else
    let low_df := st.df_inventory.filter
      (fun r => decide (0 < r.inventory) && decide (r.inventory ≤ LOW_THRESHOLD))
    let lows2 := st.filtered_lows ∪ (low_df.map (fun r => r.article)).toFinset
    Except.ok ({ st with filtered_lows := lows2 }, lows2.card)

/-- The state after one find_zeros call: an error (empty table or fetch
ValueError) leaves the in-memory state as it was. -/
def applyFindZeros (st : AppState) (store : DnoStore) : AppState :=
  match find_zeros st store with
  | Except.ok p => p.1
  | Except.error _ => st

/-- The state after one find_lows call: an error leaves the state as it
was. -/
def applyFindLows (st : AppState) : AppState :=
  match find_lows st with
  | Except.ok p => p.1
  | Except.error _ => st

/-- Membership of an inventory Article value in the DNO store as the
specification reads it: identifiers are the stored strings, a numeric
cell standing for its canonical numeral. Stated from the spec wording,
for comparison against the source-derived behaviour of find_zeros. -/
def inDnoSpec (v : Value) (rows : List String) : Bool :=
  rows.contains (str_of_item v)

/-- A concrete non-banned inventory row used in witnesses: a string
Article value with zero inventory. -/
def exRow : Row :=
  { department := Value.vStr "Grocery", category := Value.vStr "HMR",
    description := Value.vStr "Apple", article := Value.vStr "1001",
    inventory := 0 }

/-- A state holding exactly exRow, as produced by one upload. -/
def exState : AppState :=
  { df_inventory := [exRow], filtered_zeros := ∅, filtered_lows := ∅ }

/-! Shared lemmas about the embedded operations. -/

lemma mem_of_mem_dropDuplicatesKeepLast {l : List Row} {r : Row}
    (h : r ∈ dropDuplicatesKeepLast l) : r ∈ l := by
  induction l with
  | nil => simp [dropDuplicatesKeepLast] at h
  | cons x xs ih =>
    simp only [dropDuplicatesKeepLast] at h
    split at h
    · exact List.mem_cons_of_mem x (ih h)
    · rcases List.mem_cons.mp h with h1 | h2
      · exact h1 ▸ List.mem_cons_self x xs
      · exact List.mem_cons_of_mem x (ih h2)

lemma nodup_key_dropDuplicatesKeepLast (l : List Row) :
    ((dropDuplicatesKeepLast l).map (fun r => r.article)).Nodup := by
  induction l with
  | nil => simp [dropDuplicatesKeepLast]
  | cons x xs ih =>
    simp only [dropDuplicatesKeepLast]
    by_cases hany :
        ((dropDuplicatesKeepLast xs).any (fun y => y.article == x.article)) = true
    · rw [if_pos hany]; exact ih
    · rw [if_neg hany]
      simp only [List.map_cons, List.nodup_cons]
      refine ⟨?_, ih⟩
      intro hmem
      rcases List.mem_map.mp hmem with ⟨y, hy, hyx⟩
      exact hany (List.any_eq_true.mpr ⟨y, hy, beq_iff_eq.mpr hyx⟩)

lemma self_mem_dropDuplicatesKeepLast_append (l : List Row) (r : Row) :
    r ∈ dropDuplicatesKeepLast (l ++ [r]) := by
  induction l with
  | nil => simp [dropDuplicatesKeepLast]
  | cons x xs ih =>
    simp only [List.cons_append, dropDuplicatesKeepLast]
    split
    · exact ih
    · exact List.mem_cons_of_mem x ih

lemma upload_excel_ok {st : AppState} {rows : List Row} {st2 : AppState}
    (h : upload_excel st rows = Except.ok st2) :
    st2.df_inventory =
      dropDuplicatesKeepLast
        (st.df_inventory ++ rows.filter (fun r => is_banned r.category == some false)) ∧
    st2.filtered_zeros = st.filtered_zeros ∧ st2.filtered_lows = st.filtered_lows := by
  simp only [upload_excel] at h
  split at h
  · cases h
  · cases h
    by_cases hemp : st.df_inventory.isEmpty = true
    · have hnil : st.df_inventory = [] := List.isEmpty_iff.mp hemp
      simp [hemp, hnil]
    · simp [hemp]

/-- No row of the accumulated table has a banned (or non-string)
Merchandise Category value. -/
def categoryClean (st : AppState) : Prop :=
  ∀ r ∈ st.df_inventory, is_banned r.category = some false

lemma uploadStep_clean {st : AppState} (rows : List Row) (h : categoryClean st) :
    categoryClean (uploadStep st rows) := by
  unfold uploadStep
  cases heq : upload_excel st rows with
  | error e => exact h
  | ok st2 =>
    obtain ⟨hdf, _, _⟩ := upload_excel_ok heq
    intro r hr
    rw [hdf] at hr
    rcases List.mem_append.mp (mem_of_mem_dropDuplicatesKeepLast hr) with h1 | h2
    · exact h r h1
    · exact beq_iff_eq.mp (List.mem_filter.mp h2).2

lemma foldl_uploadStep_clean (uploads : List (List Row)) :
    ∀ st : AppState, categoryClean st → categoryClean (uploads.foldl uploadStep st) := by
  induction uploads with
  | nil => intro st h; exact h
  | cons u us ih => intro st h; exact ih _ (uploadStep_clean u h)

lemma runUploads_clean (uploads : List (List Row)) : categoryClean (runUploads uploads) := by
  apply foldl_uploadStep_clean
  intro r hr
  simp [initState] at hr

lemma nodup_key_uploadStep (st : AppState) (rows : List Row)
    (h : ((st.df_inventory.map (fun r => r.article)).Nodup)) :
    (((uploadStep st rows).df_inventory.map (fun r => r.article)).Nodup) := by
  unfold uploadStep
  cases heq : upload_excel st rows with
  | error e => exact h
  | ok st2 =>
    obtain ⟨hdf, _, _⟩ := upload_excel_ok heq
    rw [hdf]
    exact nodup_key_dropDuplicatesKeepLast _

lemma foldl_uploadStep_nodup (uploads : List (List Row)) :
    ∀ st : AppState, ((st.df_inventory.map (fun r => r.article)).Nodup) →
      (((uploads.foldl uploadStep st).df_inventory.map (fun r => r.article)).Nodup) := by
  induction uploads with
  | nil => intro st h; exact h
  | cons u us ih => intro st h; exact ih _ (nodup_key_uploadStep st u h)

lemma runUploads_nodup (uploads : List (List Row)) :
    (((runUploads uploads).df_inventory.map (fun r => r.article)).Nodup) := by
  apply foldl_uploadStep_nodup
  simp [initState]

/-- The row exRow reuploaded with a different inventory value. -/
def exRow2 : Row :=
  { department := Value.vStr "Grocery", category := Value.vStr "HMR",
    description := Value.vStr "Apple", article := Value.vStr "1001",
    inventory := 5 }

/-- The state after uploading exRow and then exRow2. -/
def exState2 : AppState :=
  { df_inventory := [exRow2], filtered_zeros := ∅, filtered_lows := ∅ }

/-- A row whose Merchandise Category cell is empty, which pandas reads as
a non-string missing value. -/
def nanRow : Row :=
  { department := Value.vStr "Grocery", category := Value.vNone,
    description := Value.vStr "Mystery", article := Value.vInt 1004,
    inventory := 3 }

/-- Claim C6: for every sequence of ingest calls, no row whose
merchandiseCategory starts with a banned prefix (prefix match,
case-sensitive, exact as listed) is ever present in the accumulated
inventory table; in particular a row with category Lamb-Ground (banned
prefix Lamb) never appears in the table. -/
theorem C6_banned_categories_never_present :
    (∀ (uploads : List (List Row)) (r : Row),
        r ∈ (runUploads uploads).df_inventory → is_banned r.category ≠ some true) ∧
    is_banned (Value.vStr "Lamb-Ground") = some true ∧
    (∀ (uploads : List (List Row)) (r : Row),
        r ∈ (runUploads uploads).df_inventory → r.category ≠ Value.vStr "Lamb-Ground") := by
  have hlamb : is_banned (Value.vStr "Lamb-Ground") = some true := by decide
  refine ⟨?_, hlamb, ?_⟩
  · intro uploads r hr
    rw [runUploads_clean uploads r hr]
    simp
  · intro uploads r hr hcat
    have hclean := runUploads_clean uploads r hr
    rw [hcat, hlamb] at hclean
    simp at hclean

/-- Witness for C6 at a concrete reachable table. -/
theorem C6_banned_categories_never_present_witness :
    is_banned exRow.category ≠ some true :=
  C6_banned_categories_never_present.1 [[exRow]] exRow (by decide)

/-- Claim C7: after ingesting twice with the same article identifier but
different field values, the accumulated inventory table contains exactly
one row for that identifier, carrying the second (most recent) values;
and after every ingest sequence the table holds at most one record per
article identifier, last upload winning on conflict. -/
theorem C7_dedup_last_wins :
    (∀ uploads : List (List Row),
        (((runUploads uploads).df_inventory.map (fun r => r.article)).Nodup)) ∧
    (∀ (st : AppState) (r1 r2 : Row) (st1 st2 : AppState),
        r1.article = r2.article →
        is_banned r2.category = some false →
        upload_excel st [r1] = Except.ok st1 →
        upload_excel st1 [r2] = Except.ok st2 →
        ((st2.df_inventory.map (fun r => r.article)).Nodup ∧
         r2 ∈ st2.df_inventory ∧
         ∀ r ∈ st2.df_inventory, r.article = r2.article → r = r2)) := by
  refine ⟨runUploads_nodup, ?_⟩
  intro st r1 r2 st1 st2 _ hcat h1 h2
  obtain ⟨hdf, _, _⟩ := upload_excel_ok h2
  have hfil : [r2].filter (fun r => is_banned r.category == some false) = [r2] := by
    simp [List.filter, hcat]
  rw [hfil] at hdf
  have hnd : ((st2.df_inventory.map (fun r => r.article)).Nodup) := by
    rw [hdf]; exact nodup_key_dropDuplicatesKeepLast _
  have hmem : r2 ∈ st2.df_inventory := by
    rw [hdf]; exact self_mem_dropDuplicatesKeepLast_append _ _
  refine ⟨hnd, hmem, ?_⟩
  intro r hr hart
  exact List.inj_on_of_nodup_map hnd hr hmem hart

/-- Witness for C7: uploading exRow and then exRow2 (same article, other
inventory value) leaves exactly the row exRow2. -/
theorem C7_dedup_last_wins_witness : exRow2 ∈ exState2.df_inventory :=
  (C7_dedup_last_wins.2 initState exRow exRow2 exState exState2
    (by decide) (by decide) (by decide) (by decide)).2.1

/-- Claim C10: inventory ingestion is total only over inputs in which
every Merchandise Category cell is a string: an uploaded row whose
category value is not a string makes the banned-category test raise an
uncaught error, so the ingest does not complete and the accumulated
table is unchanged. -/
theorem C10_non_string_category_raises
    (st : AppState) (rows : List Row) (r : Row)
    (h1 : r ∈ rows) (h2 : is_banned r.category = Option.none) :
    upload_excel st rows = Except.error UploadErr.typeErrorNonStringCategory ∧
    uploadStep st rows = st := by
  have hany : rows.any (fun r => (is_banned r.category).isNone) = true :=
    List.any_eq_true.mpr ⟨r, h1, by simp [h2]⟩
  have herr : upload_excel st rows = Except.error UploadErr.typeErrorNonStringCategory := by
    simp only [upload_excel, hany]
    rfl
  exact ⟨herr, by simp [uploadStep, herr]⟩

/-- Witness for C10 at a concrete state and row. -/
theorem C10_non_string_category_raises_witness :
    upload_excel exState [nanRow] = Except.error UploadErr.typeErrorNonStringCategory ∧
    uploadStep exState [nanRow] = exState :=
  C10_non_string_category_raises exState [nanRow] nanRow (by decide) (by decide)

/-- Claim C8: exportTo with no store file fails with NotFoundError and
leaves the destination untouched; with a store present it copies the full
store file to the destination. -/
theorem C8_export_requires_store :
    (∀ dest : DnoStore,
        export_dno Option.none dest = (Except.error ExportErr.notFoundError, dest)) ∧
    (∀ (rows : List String) (dest : DnoStore),
        export_dno (some rows) dest = (Except.ok (), some rows)) :=
  ⟨fun _ => rfl, fun _ _ => rfl⟩

/-- Claim C9: remove deletes the identifier if present and reports
whether a row was actually removed; removing an absent identifier
reports not-removed without raising and leaves the member set unchanged. -/
theorem C9_remove_distinguishes_absent (rows : List String) (a : String) :
    (a ∉ rows →
        remove_from_DNO (some rows) a = (some rows, RemoveResult.notFound)) ∧
    (a ∈ rows → (remove_from_DNO (some rows) a).2 = RemoveResult.removed) ∧
    (∀ b, b ∈ ((remove_from_DNO (some rows) a).1.getD []) ↔ b ∈ rows ∧ b ≠ a) := by
  refine ⟨?_, ?_, ?_⟩
  · intro ha
    have hfil : rows.filter (fun r => r ≠ a) = rows :=
      List.filter_eq_self.mpr
        (fun b hb => decide_eq_true (fun hba => ha (hba ▸ hb)))
    simp only [decide_not] at hfil
    simp [remove_from_DNO, hfil]
  · intro ha
    have hsub : (rows.filter (fun r => r ≠ a)).Sublist rows := List.filter_sublist _
    have hne : rows.filter (fun r => r ≠ a) ≠ rows := by
      intro heq
      rw [← heq] at ha
      have hd := (List.mem_filter.mp ha).2
      simp at hd
    have hlt : (rows.filter (fun r => r ≠ a)).length < rows.length :=
      lt_of_le_of_ne hsub.length_le (fun h => hne (hsub.eq_of_length h))
    simp only [decide_not] at hlt
    simp [remove_from_DNO, hlt]
  · intro b
    simp [remove_from_DNO, List.mem_filter]

/-- Witness for C9: removing 9999 from a store holding only 1001 reports
not-found and changes nothing. -/
theorem C9_remove_distinguishes_absent_witness :
    remove_from_DNO (some ["1001"]) "9999" = (some ["1001"], RemoveResult.notFound) :=
  (C9_remove_distinguishes_absent ["1001"] "9999").1 (by decide)

lemma insertOrIgnore_of_mem {rows : List String} {a : String} (h : a ∈ rows) :
    insertOrIgnore rows a = rows := by
  simp [insertOrIgnore, h]

lemma insertOrIgnore_of_not_mem {rows : List String} {a : String} (h : a ∉ rows) :
    insertOrIgnore rows a = rows ++ [a] := by
  simp [insertOrIgnore, h]

lemma self_mem_insertOrIgnore (rows : List String) (a : String) :
    a ∈ insertOrIgnore rows a := by
  by_cases h : a ∈ rows
  · rw [insertOrIgnore_of_mem h]; exact h
  · rw [insertOrIgnore_of_not_mem h]; simp

lemma importFold_append (items : List Value) :
    ∀ rows : List String, ∃ added : List String,
      importFold rows items = rows ++ added ∧ added.Nodup ∧
      ∀ a ∈ added, a ∉ rows ∧ a ∈ items.map str_of_item := by
  induction items with
  | nil =>
    intro rows
    exact ⟨[], by simp [importFold], List.nodup_nil, by simp⟩
  | cons item rest ih =>
    intro rows
    by_cases hmem : str_of_item item ∈ rows
    · obtain ⟨added, h1, h2, h3⟩ := ih rows
      refine ⟨added, ?_, h2, fun a ha => ⟨(h3 a ha).1, ?_⟩⟩
      · simp only [importFold, List.foldl_cons] at h1 ⊢
        rw [insertOrIgnore_of_mem hmem]
        exact h1
      · exact List.mem_cons_of_mem _ ((h3 a ha).2)
    · obtain ⟨added, h1, h2, h3⟩ := ih (rows ++ [str_of_item item])
      refine ⟨str_of_item item :: added, ?_, ?_, ?_⟩
      · simp only [importFold, List.foldl_cons] at h1 ⊢
        rw [insertOrIgnore_of_not_mem hmem, h1]
        simp
      · refine List.nodup_cons.mpr ⟨?_, h2⟩
        intro hs
        have := (h3 _ hs).1
        simp at this
      · intro a ha
        rcases List.mem_cons.mp ha with rfl | ha2
        · exact ⟨hmem, by simp⟩
        · refine ⟨fun hc => (h3 a ha2).1 (List.mem_append_left _ hc), ?_⟩
          exact List.mem_cons_of_mem _ ((h3 a ha2).2)

lemma mem_importFold {rows : List String} (items : List Value) {a : String}
    (h : a ∈ rows) : a ∈ importFold rows items := by
  obtain ⟨added, h1, _, _⟩ := importFold_append items rows
  rw [h1]
  exact List.mem_append_left _ h

lemma str_mem_importFold (items : List Value) :
    ∀ rows : List String, ∀ item ∈ items, str_of_item item ∈ importFold rows items := by
  induction items with
  | nil => simp
  | cons it rest ih =>
    intro rows item hitem
    rcases List.mem_cons.mp hitem with rfl | h2
    · simp only [importFold, List.foldl_cons]
      exact mem_importFold rest (self_mem_insertOrIgnore rows (str_of_item item))
    · simp only [importFold, List.foldl_cons]
      exact ih _ item h2

lemma importFold_eq_of_mem (items : List Value) :
    ∀ rows : List String, (∀ item ∈ items, str_of_item item ∈ rows) →
      importFold rows items = rows := by
  induction items with
  | nil => intro rows _; simp [importFold]
  | cons it rest ih =>
    intro rows h
    simp only [importFold, List.foldl_cons]
    rw [insertOrIgnore_of_mem (h it (List.mem_cons_self it rest))]
    have := ih rows (fun item hm => h item (List.mem_cons_of_mem _ hm))
    simpa [importFold] using this

/-- Counterexample to claim C4 as stated: a numeric-looking string with a
fractional artifact is NOT reduced to canonical integer-string form, so
importing the number 123 and the string 123.0 stores two identifiers. -/
theorem C4_counterexample :
    (import_dno Option.none [[Value.vStr "123.0", Value.vInt 123]]).1 =
      some ["123.0", "123"] ∧
    str_of_item (Value.vStr "123.0") = "123.0" := by decide

/-- Claim C4 (amended): only actual numeric values (Python int or float
instances) are normalized to canonical integer-string form; every string
value passes through unchanged, so a number and its exact canonical
numeral unify into one stored identifier while any other numeric-looking
string stays a distinct identifier. -/
theorem C4_numeric_normalization (i : Int) (s : String) :
    str_of_item (Value.vInt i) = toString i ∧
    str_of_item (Value.vStr s) = s ∧
    (import_dno Option.none [[Value.vInt i, Value.vStr (toString i)]]).1 =
      some [toString i] ∧
    (import_dno Option.none [[Value.vInt i, Value.vStr (toString i)]]).2 = 1 := by
  refine ⟨rfl, rfl, ?_, ?_⟩ <;>
    simp [import_dno, importFold, insertOrIgnore, str_of_item]

/-- Claim C5: importFrom reports the count of newly-added identifiers
(insert-or-ignore, duplicates skipped), and importing the same
spreadsheet twice reports 0 the second time while leaving the member set
equal to its state after the first import. -/
theorem C5_reimport_adds_nothing (store : DnoStore) (sheets : List (List Value)) :
    (∃ added : List String,
        (import_dno store sheets).1 = some (store.getD [] ++ added) ∧
        added.Nodup ∧ (∀ a ∈ added, a ∉ store.getD []) ∧
        (import_dno store sheets).2 = added.length) ∧
    (import_dno (import_dno store sheets).1 sheets).2 = 0 ∧
    (import_dno (import_dno store sheets).1 sheets).1 = (import_dno store sheets).1 := by
  obtain ⟨added, h1, h2, h3⟩ :=
    importFold_append
      ((sheets.map (fun cells => cells.filter (fun v => v ≠ Value.vNone))).flatten)
      (store.getD [])
  have hall :
      ∀ item ∈ (sheets.map (fun cells => cells.filter (fun v => v ≠ Value.vNone))).flatten,
        str_of_item item ∈
          importFold (store.getD [])
            ((sheets.map (fun cells => cells.filter (fun v => v ≠ Value.vNone))).flatten) :=
    fun item hm => str_mem_importFold _ _ item hm
  have heq :=
    importFold_eq_of_mem
      ((sheets.map (fun cells => cells.filter (fun v => v ≠ Value.vNone))).flatten)
      (importFold (store.getD [])
        ((sheets.map (fun cells => cells.filter (fun v => v ≠ Value.vNone))).flatten))
      hall
  refine ⟨⟨added, ?_, h2, fun a ha => (h3 a ha).1, ?_⟩, ?_, ?_⟩
  · simp only [import_dno]
    rw [h1]
  · simp only [import_dno]
    rw [h1]
    simp
  · simp only [import_dno, Option.getD_some]
    rw [heq]
    exact Nat.sub_self _
  · simp only [import_dno, Option.getD_some]
    rw [heq]

lemma fetch_list_ok (rows : List String) :
    (∀ r ∈ rows, (pyInt r).isSome) →
      ∃ l, fetch_list rows = Except.ok l ∧
        ∀ r ∈ rows, ∀ i, pyInt r = some i → i ∈ l := by
  induction rows with
  | nil => exact fun _ => ⟨[], rfl, by simp⟩
  | cons r rest ih =>
    intro h
    obtain ⟨i, hi⟩ := Option.isSome_iff_exists.mp (h r (List.mem_cons_self r rest))
    obtain ⟨l, hl, hmem⟩ := ih (fun x hx => h x (List.mem_cons_of_mem _ hx))
    refine ⟨i :: l, ?_, ?_⟩
    · simp only [fetch_list, hi, hl]
    · intro x hx j hj
      rcases List.mem_cons.mp hx with rfl | hx2
      · rw [hi] at hj
        cases hj
        exact List.mem_cons_self _ _
      · exact List.mem_cons_of_mem _ (hmem x hx2 j hj)

/-- Counterexample to claim C3 as stated: identifiers are stored as
opaque strings, and the string A1 is storable through add, but members()
then raises ValueError instead of returning a set containing it, because
every fetched row is converted with int(...). -/
theorem C3_counterexample :
    add_new_DNO Option.none "A1" = some ["A1"] ∧
    fetch_dno_articles (some ["A1"]) = Except.error DnoErr.valueError := by decide

/-- Claim C3 (amended): members() returns the integer parses of the
stored identifier strings, not the strings themselves: with no store file
it returns the empty set without creating a row, with every stored
identifier an integer numeral it succeeds and the parse of each stored
identifier is in the returned list, and a non-numeral stored identifier
makes it raise ValueError. -/
theorem C3_members_are_int_parses :
    fetch_dno_articles Option.none = Except.ok [] ∧
    (∀ rows : List String, (∀ r ∈ rows, (pyInt r).isSome) →
      ∃ l, fetch_dno_articles (some rows) = Except.ok l ∧
        ∀ r ∈ rows, ∀ i, pyInt r = some i → i ∈ l) :=
  ⟨rfl, fun rows h => fetch_list_ok rows h⟩

/-- Witness for C3 via a store holding the numeral 1001. -/
theorem C3_members_are_int_parses_witness :
    (∀ r ∈ ["1001"], (pyInt r).isSome) ∧
    (∃ l, fetch_dno_articles (some ["1001"]) = Except.ok l ∧
      ∀ r ∈ ["1001"], ∀ i, pyInt r = some i → i ∈ l) :=
  ⟨by decide, C3_members_are_int_parses.2 ["1001"] (by decide)⟩

lemma find_lows_empty {st : AppState} (h : st.df_inventory = []) :
    find_lows st = Except.error ClassifyErr.emptyInputError := by
  simp [find_lows, h]

lemma find_lows_nonempty {st : AppState} (h : st.df_inventory ≠ []) :
    find_lows st =
      Except.ok
        ({ st with filtered_lows :=
            st.filtered_lows ∪
              ((st.df_inventory.filter
                  (fun r => decide (0 < r.inventory) && decide (r.inventory ≤ LOW_THRESHOLD))).map
                (fun r => r.article)).toFinset },
         (st.filtered_lows ∪
            ((st.df_inventory.filter
                (fun r => decide (0 < r.inventory) && decide (r.inventory ≤ LOW_THRESHOLD))).map
              (fun r => r.article)).toFinset).card) := by
  have hne : st.df_inventory.isEmpty = false := by
    simpa [List.isEmpty_iff] using h
  simp [find_lows, hne]

/-- Claim C2: findLows on a non-empty table selects exactly the rows with
0 < inventoryCount <= lowThreshold (default 2) and unions their
identifiers into the persistent running low set without any DNO
exclusion: a row with inventoryCount 1 whose identifier sits in the DNO
store still lands in the low set; an empty table fails with
EmptyInputError. -/
theorem C2_find_lows_ignores_dno (st : AppState) :
    (st.df_inventory = [] →
        find_lows st = Except.error ClassifyErr.emptyInputError ∧
        applyFindLows st = st) ∧
    (st.df_inventory ≠ [] →
        ∃ n, find_lows st = Except.ok (applyFindLows st, n) ∧
          n = (applyFindLows st).filtered_lows.card ∧
          (applyFindLows st).df_inventory = st.df_inventory ∧
          (applyFindLows st).filtered_zeros = st.filtered_zeros ∧
          (∀ v, v ∈ (applyFindLows st).filtered_lows ↔
              v ∈ st.filtered_lows ∨
              ∃ r ∈ st.df_inventory,
                0 < r.inventory ∧ r.inventory ≤ LOW_THRESHOLD ∧ r.article = v)) ∧
    st.filtered_lows ⊆ (applyFindLows st).filtered_lows ∧
    (∀ (dno : List String) (r : Row), r ∈ st.df_inventory → r.inventory = 1 →
        inDnoSpec r.article dno = true →
        r.article ∈ (applyFindLows st).filtered_lows) := by
  by_cases hdf : st.df_inventory = []
  · have herr := find_lows_empty hdf
    have happ : applyFindLows st = st := by simp [applyFindLows, herr]
    refine ⟨fun _ => ⟨herr, happ⟩, fun hne => absurd hdf hne, ?_, ?_⟩
    · rw [happ]
    · intro dno r hr _ _
      rw [hdf] at hr
      cases hr
  · have hok := find_lows_nonempty hdf
    have happ :
        applyFindLows st =
          { st with filtered_lows :=
              st.filtered_lows ∪
                ((st.df_inventory.filter
                    (fun r => decide (0 < r.inventory) && decide (r.inventory ≤ LOW_THRESHOLD))).map
                  (fun r => r.article)).toFinset } := by
      simp [applyFindLows, hok]
    have hchar : ∀ v, v ∈ (applyFindLows st).filtered_lows ↔
        v ∈ st.filtered_lows ∨
        ∃ r ∈ st.df_inventory,
          0 < r.inventory ∧ r.inventory ≤ LOW_THRESHOLD ∧ r.article = v := by
      intro v
      rw [happ]
      simp only [Finset.mem_union, List.mem_toFinset, List.mem_map, List.mem_filter,
        Bool.and_eq_true, decide_eq_true_eq]
      tauto
    refine ⟨fun h => absurd h hdf, fun _ => ⟨(applyFindLows st).filtered_lows.card, ?_, rfl, ?_, ?_, hchar⟩, ?_, ?_⟩
    · rw [happ]
      exact hok
    · rw [happ]
    · rw [happ]
    · rw [happ]
      exact Finset.subset_union_left
    · intro dno r hr h1 _
      refine (hchar r.article).mpr (Or.inr ⟨r, hr, ?_, ?_, rfl⟩)
      · rw [h1]; norm_num
      · rw [h1, LOW_THRESHOLD]; norm_num

/-- A row with inventory 1 and an integer article value. -/
def lowRow : Row :=
  { department := Value.vStr "Grocery", category := Value.vStr "HMR",
    description := Value.vStr "Pear", article := Value.vInt 1002,
    inventory := 1 }

/-- A state holding exactly lowRow. -/
def lowState : AppState :=
  { df_inventory := [lowRow], filtered_zeros := ∅, filtered_lows := ∅ }

/-- Witness for C2: article 1002 has inventory 1 and its numeral is in
the DNO store, yet it lands in the low set. -/
theorem C2_find_lows_ignores_dno_witness :
    Value.vInt 1002 ∈ (applyFindLows lowState).filtered_lows :=
  (C2_find_lows_ignores_dno lowState).2.2.2 ["1002"] lowRow (by decide) (by decide)
    (by decide)

lemma find_zeros_empty {st : AppState} (store : DnoStore) (h : st.df_inventory = []) :
    find_zeros st store = Except.error ClassifyErr.emptyInputError := by
  simp [find_zeros, h]

lemma find_zeros_fetch_error {st : AppState} {store : DnoStore} {e : DnoErr}
    (h : st.df_inventory ≠ []) (hf : fetch_dno_articles store = Except.error e) :
    find_zeros st store = Except.error ClassifyErr.valueError := by
  have hne : st.df_inventory.isEmpty = false := by
    simpa [List.isEmpty_iff] using h
  simp [find_zeros, hne, hf]

lemma find_zeros_ok {st : AppState} {store : DnoStore} {dno_list : List Int}
    (h : st.df_inventory ≠ []) (hf : fetch_dno_articles store = Except.ok dno_list) :
    find_zeros st store =
      Except.ok
        ({ st with filtered_zeros :=
            st.filtered_zeros ∪
              (((st.df_inventory.filter (fun r => decide (r.inventory ≤ 0))).filter
                  (fun r => !isinDno r.article dno_list)).map
                (fun r => r.article)).toFinset },
         (st.filtered_zeros ∪
            (((st.df_inventory.filter (fun r => decide (r.inventory ≤ 0))).filter
                (fun r => !isinDno r.article dno_list)).map
              (fun r => r.article)).toFinset).card) := by
  have hne : st.df_inventory.isEmpty = false := by
    simpa [List.isEmpty_iff] using h
  simp [find_zeros, hne, hf]

/-- Counterexample to claim C1 as stated: the identifier 1001 is in the
DNO store at call time, its row has inventory 0, yet findZeros selects
it, because the store entries are int-converted while the Article cell
holds a string and pandas isin never matches a string against an int. -/
theorem C1_counterexample :
    inDnoSpec (Value.vStr "1001") ["1001"] = true ∧
    Value.vStr "1001" ∈ (applyFindZeros exState (some ["1001"])).filtered_zeros := by
  decide

/-- Claim C1 (amended): findZeros selects exactly the inventory rows with
inventoryCount at most 0 whose Article value is not among the integer
parses of the DNO store entries (so only an integer Article cell can be
excluded; a string Article cell is selected even when the identical text
is stored), unions those identifiers into the persistent running zero
set, which only grows, and reports the updated set size; it fails with
EmptyInputError on an empty table and propagates ValueError when a
stored DNO entry is not an integer numeral, in both cases leaving the
zero set unchanged. -/
theorem C1_find_zeros_excludes_parsed_dno (st : AppState) (store : DnoStore) :
    (st.df_inventory = [] →
        find_zeros st store = Except.error ClassifyErr.emptyInputError ∧
        applyFindZeros st store = st) ∧
    (∀ e, st.df_inventory ≠ [] → fetch_dno_articles store = Except.error e →
        find_zeros st store = Except.error ClassifyErr.valueError ∧
        applyFindZeros st store = st) ∧
    (∀ dno_list, st.df_inventory ≠ [] →
        fetch_dno_articles store = Except.ok dno_list →
        ∃ n, find_zeros st store = Except.ok (applyFindZeros st store, n) ∧
          n = (applyFindZeros st store).filtered_zeros.card ∧
          (applyFindZeros st store).df_inventory = st.df_inventory ∧
          (applyFindZeros st store).filtered_lows = st.filtered_lows ∧
          (∀ v, v ∈ (applyFindZeros st store).filtered_zeros ↔
              v ∈ st.filtered_zeros ∨
              ∃ r ∈ st.df_inventory,
                r.inventory ≤ 0 ∧ isinDno r.article dno_list = false ∧ r.article = v)) ∧
    st.filtered_zeros ⊆ (applyFindZeros st store).filtered_zeros := by
  by_cases hdf : st.df_inventory = []
  · have herr := find_zeros_empty store hdf
    have happ : applyFindZeros st store = st := by simp [applyFindZeros, herr]
    exact ⟨fun _ => ⟨herr, happ⟩,
      fun e hne _ => absurd hdf hne,
      fun dno_list hne _ => absurd hdf hne,
      by rw [happ]⟩
  · cases hfetch : fetch_dno_articles store with
    | error e =>
      have herr := find_zeros_fetch_error hdf hfetch
      have happ : applyFindZeros st store = st := by simp [applyFindZeros, herr]
      refine ⟨fun h => absurd h hdf, fun e2 _ _ => ⟨herr, happ⟩,
        fun dno_list _ hok => ?_, by rw [happ]⟩
      · exact Except.noConfusion hok
    | ok dno_list =>
      have hok := find_zeros_ok hdf hfetch
      have happ :
          applyFindZeros st store =
            { st with filtered_zeros :=
                st.filtered_zeros ∪
                  (((st.df_inventory.filter (fun r => decide (r.inventory ≤ 0))).filter
                      (fun r => !isinDno r.article dno_list)).map
                    (fun r => r.article)).toFinset } := by
        simp [applyFindZeros, hok]
      refine ⟨fun h => absurd h hdf, fun e _ herr => ?_,
        fun dl _ hok2 => ?_, ?_⟩
      · exact Except.noConfusion herr
      · have hdl : dl = dno_list := by
          cases hok2
          rfl
        subst hdl
        refine ⟨(applyFindZeros st store).filtered_zeros.card, ?_, rfl, ?_, ?_, ?_⟩
        · rw [happ]
          exact hok
        · rw [happ]
        · rw [happ]
        · intro v
          rw [happ]
          simp only [Finset.mem_union, List.mem_toFinset, List.mem_map, List.mem_filter,
            Bool.not_eq_true', decide_eq_true_eq]
          tauto
      · rw [happ]
        exact Finset.subset_union_left

/-- Witness for C1: with the store holding the numeral 7, the zero-stock
string article 1001 is selected into the zero set. -/
theorem C1_find_zeros_excludes_parsed_dno_witness :
    Value.vStr "1001" ∈ (applyFindZeros exState (some ["7"])).filtered_zeros := by
  obtain ⟨n, hok, hcard, hdf, hlows, hiff⟩ :=
    (C1_find_zeros_excludes_parsed_dno exState (some ["7"])).2.2.1 [7] (by decide)
      (by decide)
  exact (hiff (Value.vStr "1001")).mpr
    (Or.inr ⟨exRow, by decide, by decide, by decide, rfl⟩)

